import Mathlib

/-!
Verification of `mvp_pixel_excel.py`: an image → monochrome pixel-art
spreadsheet converter.  The script decodes an image (via PIL), converts to
greyscale, resizes to a target width/height, thresholds every sample to a
boolean, and writes one spreadsheet cell per pixel (via openpyxl).

Shallow embedding notes:
* The imaging and spreadsheet libraries are external; they are abstracted by
  an `Env` record: whether the input file exists, whether decoding succeeds,
  the native image dimensions, an oracle giving the greyscale samples of the
  resized image, and whether saving the workbook succeeds.  Everything the
  script itself computes (height derivation, the threshold loop, the cell /
  dimension writes, validation, message texts, exit codes) is embedded
  faithfully from the source.
* Python evaluates `img.height / img.width` in IEEE binary64 floating point
  (true division of ints is the correctly rounded double), converts the int
  `target_width` to a double, multiplies with correct rounding, and `int(...)`
  truncates toward zero.  This is modelled exactly with mantissa/exponent
  pairs: `roundPos a b` is the correctly rounded (round-to-nearest,
  ties-to-even) binary64 value of the nonnegative rational `a / b`, with
  unbounded exponent range (the inputs in scope are far from the overflow and
  subnormal ranges, where unbounded-exponent rounding coincides with IEEE).
-/

namespace PixelExcel

/-- Structural (fuel-based) floor of `log2`; `nlog2` below instantiates the
fuel so that it never runs out. -/
def log2Aux : ℕ → ℕ → ℕ
  | 0, _ => 0
  | fuel + 1, n => if n ≤ 1 then 0 else log2Aux fuel (n / 2) + 1

/-- `⌊log2 n⌋` (and `0` at `n = 0`), kernel-reducible. -/
def nlog2 (n : ℕ) : ℕ := log2Aux n n

/-- Binary exponent of the positive rational `a / b`: the unique `e` with
`2 ^ e ≤ a / b < 2 ^ (e + 1)`.  The first estimate `nlog2 a - nlog2 b` is
either exact or one too large; the cross-multiplied comparison corrects it. -/
def ratExp2 (a b : ℕ) : ℤ :=
  if (if 0 ≤ (nlog2 a : ℤ) - (nlog2 b : ℤ)
      then 2 ^ ((nlog2 a : ℤ) - (nlog2 b : ℤ)).toNat * b ≤ a
      else b ≤ a * 2 ^ ((nlog2 b : ℤ) - (nlog2 a : ℤ)).toNat)
  then (nlog2 a : ℤ) - (nlog2 b : ℤ)
  else (nlog2 a : ℤ) - (nlog2 b : ℤ) - 1

/-- Round the (scaled) rational `N / D` to the nearest integer, ties to even. -/
def roundMantissa (N D : ℕ) : ℕ :=
  if 2 * (N % D) < D then N / D
  else if D < 2 * (N % D) then N / D + 1
  else if (N / D) % 2 = 0 then N / D else N / D + 1

/-- The IEEE binary64 value nearest to the nonnegative rational `a / b`
(round-to-nearest, ties-to-even; exponent range unbounded, which is exact for
the magnitudes in scope).  A value is represented as a mantissa/exponent pair
`(m, e)` denoting `m * 2 ^ (e - 52)`; zero is `(0, 0)`. -/
def roundPos (a b : ℕ) : ℕ × ℤ :=
  if a = 0 then (0, 0)
  else
    (roundMantissa
      (if 0 ≤ 52 - ratExp2 a b then a * 2 ^ (52 - ratExp2 a b).toNat else a)
      (if 0 ≤ 52 - ratExp2 a b then b else b * 2 ^ (ratExp2 a b - 52).toNat),
      ratExp2 a b)

/-- Correctly rounded binary64 product of two binary64 values, as the
hardware multiplication CPython relies on produces. -/
def mulRound (x y : ℕ × ℤ) : ℕ × ℤ :=
  if 0 ≤ x.2 + y.2 - 104
  then roundPos (x.1 * y.1 * 2 ^ (x.2 + y.2 - 104).toNat) 1
  else roundPos (x.1 * y.1) (2 ^ (104 - x.2 - y.2).toNat)

/-- Python `int(...)` applied to a nonnegative binary64 value: truncation. -/
def truncF (x : ℕ × ℤ) : ℕ :=
  if 0 ≤ x.2 - 52 then x.1 * 2 ^ (x.2 - 52).toNat else x.1 / 2 ^ (52 - x.2).toNat

/-- The height the script derives when `--height` is omitted, lines 13–15:
`aspect_ratio = img.height / img.width` (binary64 true division of ints is
correctly rounded), `target_height = int(target_width * aspect_ratio)`
(exact int→float conversion rule, correctly rounded multiply, truncation
toward zero).  `main` guarantees `target_width > 0` at every call. -/
def derivedHeight (nativeW nativeH targetW : ℕ) : ℤ :=
  (truncF (mulRound (roundPos targetW 1) (roundPos nativeH nativeW)) : ℕ)

/-- The height the SPEC asserts for the no-explicit-height case: exact
`floor(W × Hn / Wn)` by integer truncation.  (Spec-side definition, to be
compared with `derivedHeight`, which is the source's computation.) -/
def specDerivedHeight (nativeW nativeH targetW : ℕ) : ℕ :=
  targetW * nativeH / nativeW

/-- Lines 24–27 of the source: `is_black = pixel_value < threshold`, then
`if invert: is_black = not is_black`. -/
def isBlack (pixelValue threshold : ℤ) (invert : Bool) : Bool :=
  let b := decide (pixelValue < threshold)
  if invert then !b else b

/-- Abstraction of everything outside the script: the filesystem and the
imaging/spreadsheet libraries. `resized targetW targetH x y` is the greyscale
sample of the resized image at `(x, y)` (PIL getpixel after LANCZOS resize). -/
structure Env where
  inputExists : Bool
  decodeOk : Bool
  decodeErrMsg : String
  nativeW : ℕ
  nativeH : ℕ
  resized : ℤ → ℤ → ℕ → ℕ → ℤ
  saveOk : Bool
  saveErrMsg : String

/-- Result of `load_and_process_image`: either the stderr line it prints
before `sys.exit(1)`, or the grid plus resolved width and height.
`resizeCall` records the `(width, height)` passed to `img.resize`, if the
call is reached. -/
structure LoadResult where
  outcome : Except String (List (List Bool) × ℤ × ℤ)
  resizeCall : Option (ℤ × ℤ)

/-- `load_and_process_image` (source lines 9–37).  Decoding failures are the
two `except` arms; on success the double loop over `range(target_height)` ×
`range(target_width)` thresholds each sample. -/
def loadAndProcessImage (env : Env) (inputPath : String) (targetWidth : ℤ)
    (targetHeightOpt : Option ℤ) (threshold : ℤ) (invert : Bool) : LoadResult :=
  if env.inputExists = false then
    { outcome := Except.error ("Error: Input file \x27" ++ inputPath ++ "\x27 not found.")
      resizeCall := none }
  else if env.decodeOk = false then
    { outcome := Except.error ("Error processing image: " ++ env.decodeErrMsg)
      resizeCall := none }
  else
    let targetHeight : ℤ :=
      match targetHeightOpt with
      | none => derivedHeight env.nativeW env.nativeH targetWidth.toNat
      | some hv => hv
    let pixels : List (List Bool) :=
      (List.range targetHeight.toNat).map (fun y =>
        (List.range targetWidth.toNat).map (fun x =>
          isBlack (env.resized targetWidth targetHeight x y) threshold invert))
    { outcome := Except.ok (pixels, targetWidth, targetHeight)
      resizeCall := some (targetWidth, targetHeight) }

/-- One `ws.cell(...)` write of the renderer: 1-indexed row and column, the
cell's glyph and its solid fill color. -/
structure CellWrite where
  row : ℕ
  col : ℕ
  glyph : Char
  fill : String
deriving DecidableEq

/-- `BLACK_CHAR = "█"` (full block). -/
def blackChar : Char := '█'

/-- `WHITE_CHAR = "░"` (light shade). -/
def whiteChar : Char := '░'

/-- `PatternFill(start_color="000000", ..., fill_type="solid")`. -/
def blackFillColor : String := "000000"

/-- `PatternFill(start_color="FFFFFF", ..., fill_type="solid")`. -/
def whiteFillColor : String := "FFFFFF"

/-- The workbook state produced by `create_pixel_art_excel` before saving. -/
structure Sheet where
  title : String
  cellWrites : List CellWrite
  colWidths : List (ℕ × ℚ)
  rowHeights : List (ℕ × ℚ)
  showGridLines : Bool

/-- `create_pixel_art_excel` (source lines 40–67), minus the save step, which
`runMain` performs through `Env.saveOk`.  The cell loop enumerates rows and
columns from 1 (`enumerate(..., start=1)`); the dimension loops run over
`range(1, width + 1)` and `range(1, height + 1)`. -/
def createPixelArtExcel (pixels : List (List Bool)) (width hgt : ℤ) : Sheet :=
  { title := "Pixel Art"
    cellWrites :=
      pixels.enum.flatMap (fun rowPair =>
        rowPair.2.enum.map (fun colPair =>
          { row := rowPair.1 + 1
            col := colPair.1 + 1
            glyph := if colPair.2 then blackChar else whiteChar
            fill := if colPair.2 then blackFillColor else whiteFillColor }))
    colWidths := (List.range width.toNat).map (fun i => (i + 1, (2.14 : ℚ)))
    rowHeights := (List.range hgt.toNat).map (fun i => (i + 1, (15 : ℚ)))
    showGridLines := false }

/-- The parsed command-line arguments (`parse_arguments`, lines 76–114). -/
structure Args where
  input : String
  output : String
  width : ℤ
  height : Option ℤ
  threshold : ℤ
  invert : Bool

/-- The condition of line 125: `args.height is not None and args.height <= 0`. -/
def heightNonpositive (o : Option ℤ) : Bool :=
  match o with
  | some v => decide (v ≤ 0)
  | none => false

/-- Observable outcome of one program run: exit status, console output,
whether (and what) the output workbook was written, whether the input file
was ever opened, and the dimensions passed to `img.resize` if reached. -/
structure RunResult where
  exitCode : ℕ
  stdoutLines : List String
  stderrLines : List String
  outputWritten : Option Sheet
  inputOpened : Bool
  resizeCall : Option (ℤ × ℤ)

/-- `main` (source lines 117–145): validate width, explicit height and
threshold; then load (opening the input), render, and save the workbook. -/
def runMain (env : Env) (args : Args) : RunResult :=
  if args.width ≤ 0 then
    { exitCode := 1, stdoutLines := [], stderrLines := ["Error: Width must be positive."]
      outputWritten := none, inputOpened := false, resizeCall := none }
  else if heightNonpositive args.height then
    { exitCode := 1, stdoutLines := [], stderrLines := ["Error: Height must be positive."]
      outputWritten := none, inputOpened := false, resizeCall := none }
  else if ¬ (0 ≤ args.threshold ∧ args.threshold ≤ 255) then
    { exitCode := 1, stdoutLines := []
      stderrLines := ["Error: Threshold must be between 0 and 255."]
      outputWritten := none, inputOpened := false, resizeCall := none }
  else
    let msg1 := "Loading and processing image: " ++ args.input
    let lr := loadAndProcessImage env args.input args.width args.height
        args.threshold args.invert
    match lr.outcome with
    | Except.error e =>
      { exitCode := 1, stdoutLines := [msg1], stderrLines := [e]
        outputWritten := none, inputOpened := true, resizeCall := lr.resizeCall }
    | Except.ok (pixels, w, hgt) =>
      let msg2 := "Creating Excel file: " ++ args.output
      let sheet := createPixelArtExcel pixels w hgt
      if env.saveOk = false then
        { exitCode := 1, stdoutLines := [msg1, msg2]
          stderrLines := ["Error saving Excel file: " ++ env.saveErrMsg]
          outputWritten := none, inputOpened := true, resizeCall := lr.resizeCall }
      else
        { exitCode := 0
          stdoutLines := [msg1, msg2,
            "✓ Success! Created " ++ toString w ++ "x" ++ toString hgt ++
              " pixel art in " ++ args.output]
          stderrLines := [], outputWritten := some sheet, inputOpened := true
          resizeCall := lr.resizeCall }

/-- The grid a `LoadResult` carries (empty when the loader failed). -/
def gridOf (r : LoadResult) : List (List Bool) :=
  match r.outcome with
  | Except.ok (p, _, _) => p
  | Except.error _ => []

/-- A concrete environment: input exists, decoding succeeds, a 2×2 native
image whose resized samples are all 255 (solid white), saving succeeds. -/
def demoEnv : Env :=
  { inputExists := true, decodeOk := true, decodeErrMsg := ""
    nativeW := 2, nativeH := 2, resized := fun _ _ _ _ => 255
    saveOk := true, saveErrMsg := "" }

/-- A concrete valid argument vector. -/
def demoArgs : Args :=
  { input := "in.png", output := "out.xlsx", width := 2, height := some 2
    threshold := 128, invert := false }

/-- A concrete invalid argument vector: width 0. -/
def argsBadWidth : Args :=
  { input := "in.png", output := "out.xlsx", width := 0, height := none
    threshold := 128, invert := false }

/-- A concrete environment whose input file is missing. -/
def envMissing : Env :=
  { inputExists := false, decodeOk := true, decodeErrMsg := ""
    nativeW := 2, nativeH := 2, resized := fun _ _ _ _ => 255
    saveOk := true, saveErrMsg := "" }

/-- A concrete 100×1 native image (native width far exceeding `W × Hn`). -/
def env100 : Env :=
  { inputExists := true, decodeOk := true, decodeErrMsg := ""
    nativeW := 100, nativeH := 1, resized := fun _ _ _ _ => 0
    saveOk := true, saveErrMsg := "" }

/-- Arguments requesting width 10 with `--height` omitted. -/
def args10 : Args :=
  { input := "wide.png", output := "out.xlsx", width := 10, height := none
    threshold := 128, invert := false }

/-- Arguments passing an explicit height of 0. -/
def argsHeightZero : Args :=
  { input := "wide.png", output := "out.xlsx", width := 10, height := some 0
    threshold := 128, invert := false }

/-- A concrete 3×13 native image for the C4 counterexample. -/
def cexEnv : Env :=
  { inputExists := true, decodeOk := true, decodeErrMsg := ""
    nativeW := 3, nativeH := 13, resized := fun _ _ _ _ => 0
    saveOk := true, saveErrMsg := "" }

/-- A concrete 1×2 native image for the C4 witness. -/
def env1 : Env :=
  { inputExists := true, decodeOk := true, decodeErrMsg := ""
    nativeW := 1, nativeH := 2, resized := fun _ _ _ _ => 0
    saveOk := true, saveErrMsg := "" }

/-- Flipping `invert` flips the per-pixel boolean. -/
theorem isBlack_invert (v t : ℤ) : isBlack v t true = !(isBlack v t false) := by
  simp [isBlack]

/-- C1: with `invert` off, a resized pixel of intensity `v` is classified dark
exactly when `v < t` (strict); at the boundary `v = t` it is light, and once
the threshold is lowered to or below `v` the pixel is light. -/
theorem c1_thresholding (v t : ℤ) :
    isBlack v t false = decide (v < t) ∧
    isBlack t t false = false ∧
    (t ≤ v → isBlack v t false = false) := by
  refine ⟨rfl, by simp [isBlack], fun hle => ?_⟩
  have hnot : ¬ v < t := by omega
  simp [isBlack, hnot]

/-- Witness for C1 at concrete intensities and threshold 128. -/
theorem c1_witness :
    isBlack 100 128 false = decide ((100 : ℤ) < 128) ∧
    isBlack 128 128 false = false ∧
    isBlack 200 128 false = false :=
  ⟨(c1_thresholding 100 128).1, (c1_thresholding 128 128).2.1,
    (c1_thresholding 200 128).2.2 (by decide)⟩

/-- C2: whenever the loader succeeds with resolved width `w > 0` and resolved
height `hgt > 0`, the grid has exactly `hgt` rows, each of exactly `w`
booleans. -/
theorem c2_grid_shape (env : Env) (inputPath : String) (tw : ℤ) (tho : Option ℤ)
    (t : ℤ) (inv : Bool) (pixels : List (List Bool)) (w hgt : ℤ)
    (hok : (loadAndProcessImage env inputPath tw tho t inv).outcome =
      Except.ok (pixels, w, hgt))
    (hw : 0 < w) (hh : 0 < hgt) :
    pixels.length = hgt.toNat ∧ ∀ row ∈ pixels, row.length = w.toNat := by
  unfold loadAndProcessImage at hok
  cases hIE : env.inputExists with
  | false => rw [hIE] at hok; simp at hok
  | true =>
    rw [hIE] at hok
    cases hDO : env.decodeOk with
    | false => rw [hDO] at hok; simp at hok
    | true =>
      rw [hDO] at hok
      simp only [Bool.true_eq_false, if_false, Except.ok.injEq, Prod.mk.injEq] at hok
      obtain ⟨e1, e2, e3⟩ := hok
      subst e1
      subst e2
      subst e3
      constructor
      · simp
      · intro row hrow
        obtain ⟨y, _, rfl⟩ := List.mem_map.1 hrow
        simp

/-- Witness for C2: the 2×2 all-white demo image at threshold 128. -/
theorem c2_witness :
    ([[false, false], [false, false]] : List (List Bool)).length = (2 : ℤ).toNat ∧
    ∀ row ∈ ([[false, false], [false, false]] : List (List Bool)),
      row.length = (2 : ℤ).toNat :=
  c2_grid_shape demoEnv "in.png" 2 (some 2) 128 false
    [[false, false], [false, false]] 2 2 rfl (by decide) (by decide)

/-- C3: with input path, width, height and threshold fixed, the grid produced
with `invert = true` is the entrywise boolean complement of the grid produced
with `invert = false`. -/
theorem c3_invert_complements (env : Env) (inputPath : String) (tw : ℤ)
    (tho : Option ℤ) (t : ℤ) :
    gridOf (loadAndProcessImage env inputPath tw tho t true) =
      (gridOf (loadAndProcessImage env inputPath tw tho t false)).map
        (fun row => row.map (fun b => !b)) := by
  unfold gridOf loadAndProcessImage
  cases hIE : env.inputExists with
  | false => simp
  | true =>
    cases hDO : env.decodeOk with
    | false => simp
    | true => simp [List.map_map, Function.comp_def, isBlack]

/-- C5: on any validation failure (non-positive width, explicit non-positive
height, or threshold out of `[0, 255]`), the driver prints a single error
line, exits with status 1, writes no output file, and never opens the input
file. -/
theorem c5_validation_failure (env : Env) (args : Args)
    (hbad : args.width ≤ 0 ∨ (∃ hv, args.height = some hv ∧ hv ≤ 0) ∨
      args.threshold < 0 ∨ 255 < args.threshold) :
    (runMain env args).exitCode = 1 ∧
    (runMain env args).stderrLines.length = 1 ∧
    (runMain env args).outputWritten = none ∧
    (runMain env args).inputOpened = false ∧
    (runMain env args).stdoutLines = [] := by
  by_cases h1 : args.width ≤ 0
  · simp [runMain, h1]
  · by_cases h2 : heightNonpositive args.height
    · simp [runMain, h1, h2]
    · rcases hbad with hb | ⟨hv, hsome, hle⟩ | hb | hb
      · exact absurd hb h1
      · exact absurd (by simp [heightNonpositive, hsome, hle]) h2
      · have h3 : ¬ (0 ≤ args.threshold ∧ args.threshold ≤ 255) := by omega
        simp [runMain, h1, h2, h3]
      · have h3 : ¬ (0 ≤ args.threshold ∧ args.threshold ≤ 255) := by omega
        simp [runMain, h1, h2, h3]

/-- Witness for C5 at width 0. -/
theorem c5_witness :
    (runMain demoEnv argsBadWidth).exitCode = 1 ∧
    (runMain demoEnv argsBadWidth).stderrLines.length = 1 ∧
    (runMain demoEnv argsBadWidth).outputWritten = none ∧
    (runMain demoEnv argsBadWidth).inputOpened = false ∧
    (runMain demoEnv argsBadWidth).stdoutLines = [] :=
  c5_validation_failure demoEnv argsBadWidth (Or.inl (by decide))

/-- C7: the renderer gives each of the first `width` columns width 2.14 and
each of the first `height` rows height 15 — no other column or row has its
dimension set — and disables the sheet view gridlines. -/
theorem c7_dimensions_and_gridlines (pixels : List (List Bool)) (w hgt : ℤ) :
    (∀ c q, (c, q) ∈ (createPixelArtExcel pixels w hgt).colWidths ↔
      1 ≤ c ∧ (c : ℤ) ≤ w ∧ q = (2.14 : ℚ)) ∧
    (∀ r q, (r, q) ∈ (createPixelArtExcel pixels w hgt).rowHeights ↔
      1 ≤ r ∧ (r : ℤ) ≤ hgt ∧ q = (15 : ℚ)) ∧
    (createPixelArtExcel pixels w hgt).showGridLines = false := by
  refine ⟨fun c q => ?_, fun r q => ?_, rfl⟩
  · simp only [createPixelArtExcel, List.mem_map, List.mem_range, Prod.mk.injEq]
    constructor
    · rintro ⟨i, hi, rfl, rfl⟩
      refine ⟨by omega, by omega, rfl⟩
    · rintro ⟨h1, h2, rfl⟩
      exact ⟨c - 1, by omega, by omega, rfl⟩
  · simp only [createPixelArtExcel, List.mem_map, List.mem_range, Prod.mk.injEq]
    constructor
    · rintro ⟨i, hi, rfl, rfl⟩
      refine ⟨by omega, by omega, rfl⟩
    · rintro ⟨h1, h2, rfl⟩
      exact ⟨r - 1, by omega, by omega, rfl⟩

/-- C6: a cell write `(r, c) ↦ (glyph, fill)` is issued by the renderer
exactly when `(r, c)` is the 1-indexed position of a grid entry, i.e. row
`r - 1`, column `c - 1` of the grid exist; the glyph is the full-block
character with solid black fill (`000000`, i.e. `#000000`) for a dark entry,
and the light-shade character with solid white fill (`FFFFFF`) otherwise.
In particular no cell outside the grid extent is written. -/
theorem c6_cell_writes (pixels : List (List Bool)) (w hgt : ℤ) (cw : CellWrite) :
    cw ∈ (createPixelArtExcel pixels w hgt).cellWrites ↔
      ∃ i j row b, pixels[i]? = some row ∧ row[j]? = some b ∧
        cw = { row := i + 1, col := j + 1
               glyph := if b then blackChar else whiteChar
               fill := if b then blackFillColor else whiteFillColor } := by
  simp only [createPixelArtExcel, List.mem_flatMap, List.mem_map,
    List.mem_enum_iff_getElem?]
  constructor
  · rintro ⟨⟨i, row⟩, hrow, ⟨j, b⟩, hb, rfl⟩
    exact ⟨i, j, row, b, hrow, hb, rfl⟩
  · rintro ⟨i, j, row, b, hrow, hb, rfl⟩
    exact ⟨⟨i, row⟩, hrow, ⟨j, b⟩, hb, rfl⟩

/-- C8: with otherwise valid arguments, a run whose input file does not exist
exits with status 1, prints an error line that contains the input path, and
writes no output file. -/
theorem c8_input_not_found (env : Env) (args : Args)
    (hw : 0 < args.width) (hh : heightNonpositive args.height = false)
    (ht0 : 0 ≤ args.threshold) (ht1 : args.threshold ≤ 255)
    (hmiss : env.inputExists = false) :
    (runMain env args).exitCode = 1 ∧
    (runMain env args).outputWritten = none ∧
    ∃ pre suf, (runMain env args).stderrLines = [pre ++ args.input ++ suf] := by
  have h1 : ¬ args.width ≤ 0 := by omega
  have h2 : ¬ heightNonpositive args.height = true := by simp [hh]
  have h3 : ¬ ¬ (0 ≤ args.threshold ∧ args.threshold ≤ 255) :=
    not_not_intro ⟨ht0, ht1⟩
  unfold runMain
  rw [if_neg h1, if_neg h2, if_neg h3]
  unfold loadAndProcessImage
  rw [if_pos hmiss]
  exact ⟨rfl, rfl, "Error: Input file \x27", "\x27 not found.", rfl⟩

/-- Witness for C8: valid arguments against a missing input file. -/
theorem c8_witness :
    (runMain envMissing demoArgs).exitCode = 1 ∧
    (runMain envMissing demoArgs).outputWritten = none ∧
    ∃ pre suf, (runMain envMissing demoArgs).stderrLines =
      [pre ++ demoArgs.input ++ suf] :=
  c8_input_not_found envMissing demoArgs (by decide) (by decide) (by decide)
    (by decide) (by decide)

/-- C9: the exit status is 0 exactly on the success path (validation passes,
input exists, decode succeeds, save succeeds) and 1 on every failure; no
other exit code occurs, so error kinds are not distinguished by exit code. -/
theorem c9_exit_codes (env : Env) (args : Args) :
    ((runMain env args).exitCode = 0 ∨ (runMain env args).exitCode = 1) ∧
    ((runMain env args).exitCode = 0 ↔
      ¬ args.width ≤ 0 ∧ heightNonpositive args.height = false ∧
      0 ≤ args.threshold ∧ args.threshold ≤ 255 ∧
      env.inputExists = true ∧ env.decodeOk = true ∧ env.saveOk = true) := by
  by_cases h1 : args.width ≤ 0
  · simp [runMain, h1]
  · by_cases h2 : heightNonpositive args.height
    · simp [runMain, h1, h2]
    · by_cases h3 : 0 ≤ args.threshold ∧ args.threshold ≤ 255
      · cases hIE : env.inputExists with
        | false => simp [runMain, loadAndProcessImage, h1, h2, h3, hIE]
        | true =>
          cases hDO : env.decodeOk with
          | false => simp [runMain, loadAndProcessImage, h1, h2, h3, hIE, hDO]
          | true =>
            cases hSO : env.saveOk with
            | false =>
              simp [runMain, loadAndProcessImage, h1, h2, h3, hIE, hDO, hSO]
            | true =>
              simp [runMain, loadAndProcessImage, h1, h2, h3, hIE, hDO, hSO]
      · simp only [runMain, if_neg h1, if_neg h2, if_pos (show ¬ _ from h3)]
        simp
        tauto

/-- Two strings differ when the left one starts with a fixed prefix whose
first `k` characters differ from the right one's. -/
theorem append_take_ne (a x b : String) (k : ℕ) (hk : k ≤ a.data.length)
    (hne : a.data.take k ≠ b.data.take k) : a ++ x ≠ b := by
  intro h
  apply hne
  have hd : a.data ++ x.data = b.data := by rw [← String.data_append, h]
  have ht : (a.data ++ x.data).take k = b.data.take k := by rw [hd]
  rwa [List.take_append_of_le_length hk] at ht

/-- Variant of `append_take_ne` for a three-part concatenation. -/
theorem append3_take_ne (a x c b : String) (k : ℕ) (hk : k ≤ a.data.length)
    (hne : a.data.take k ≠ b.data.take k) : a ++ x ++ c ≠ b := by
  intro h
  apply hne
  have hd : a.data ++ (x.data ++ c.data) = b.data := by
    rw [← List.append_assoc, ← String.data_append, ← String.data_append, h]
  have ht : (a.data ++ (x.data ++ c.data)).take k = b.data.take k := by rw [hd]
  rwa [List.take_append_of_le_length hk] at ht

set_option maxRecDepth 400000 in
/-- C10: the derived height is never validated: whenever `--height` is
omitted, no run prints the height-validation error — and on a 100×1 image
with width 10 the derived height is 0 and the loader proceeds to call resize
with height 0 and the run succeeds, while an explicit height of 0 does
trigger `Error: Height must be positive.`. -/
theorem c10_derived_height_unchecked :
    (∀ (env : Env) (args : Args), args.height = none →
      "Error: Height must be positive." ∉ (runMain env args).stderrLines) ∧
    (runMain env100 args10).resizeCall = some (10, 0) ∧
    (runMain env100 args10).exitCode = 0 ∧
    (runMain env100 argsHeightZero).stderrLines =
      ["Error: Height must be positive."] := by
  refine ⟨?_, by decide, by decide, by decide⟩
  intro env args hnone
  by_cases h1 : args.width ≤ 0
  · simp [runMain, h1]
  · have h2 : ¬ heightNonpositive args.height = true := by
      simp [heightNonpositive, hnone]
    by_cases h3 : 0 ≤ args.threshold ∧ args.threshold ≤ 255
    · cases hIE : env.inputExists with
      | false =>
        have hmsg := append3_take_ne "Error: Input file \x27" args.input
          "\x27 not found." "Error: Height must be positive." 8 (by decide)
          (by decide)
        simp only [runMain, loadAndProcessImage, if_neg h1, if_neg h2, hIE]
        simp [h3]
        exact fun h => hmsg h.symm
      | true =>
        cases hDO : env.decodeOk with
        | false =>
          have hmsg := append_take_ne "Error processing image: "
            env.decodeErrMsg "Error: Height must be positive." 6 (by decide)
            (by decide)
          simp only [runMain, loadAndProcessImage, if_neg h1, if_neg h2, hIE,
            hDO]
          simp [h3]
          exact fun h => hmsg h.symm
        | true =>
          cases hSO : env.saveOk with
          | false =>
            have hmsg := append_take_ne "Error saving Excel file: "
              env.saveErrMsg "Error: Height must be positive." 6 (by decide)
              (by decide)
            simp only [runMain, loadAndProcessImage, if_neg h1, if_neg h2,
              hIE, hDO, hSO]
            simp [h3]
            exact fun h => hmsg h.symm
          | true =>
            simp [runMain, loadAndProcessImage, h1, h2, h3, hIE, hDO, hSO]
    · simp [runMain, if_neg h1, if_neg h2, h3]

/-- Witness for C10: the 100×1 image, width 10, no explicit height. -/
theorem c10_witness :
    "Error: Height must be positive." ∉ (runMain env100 args10).stderrLines :=
  c10_derived_height_unchecked.1 env100 args10 rfl

/-- `log2Aux` satisfies the `log2` characterisation whenever given enough
fuel. -/
theorem log2Aux_spec (fuel : ℕ) : ∀ n, n ≤ fuel → 1 ≤ n →
    2 ^ log2Aux fuel n ≤ n ∧ n < 2 ^ (log2Aux fuel n + 1) := by
  induction fuel with
  | zero => intro n h1 h2; omega
  | succ fuel ih =>
    intro n hn h1
    by_cases h2 : n ≤ 1
    · have hone : n = 1 := by omega
      subst hone
      simp [log2Aux]
    · have hrec := ih (n / 2) (by omega) (by omega)
      simp only [log2Aux, if_neg h2]
      rcases hrec with ⟨ha, hb⟩
      rw [pow_succ] at hb
      constructor
      · rw [pow_succ]
        omega
      · rw [pow_succ, pow_succ]
        omega

/-- `Nat.log2` is determined by the two-sided power bound. -/
theorem log2_unique {m k : ℕ} (h1 : 2 ^ k ≤ m) (h2 : m < 2 ^ (k + 1)) :
    Nat.log2 m = k := by
  have hpos : 0 < 2 ^ k := Nat.two_pow_pos k
  have hm : m ≠ 0 := by omega
  have ha := Nat.log2_self_le hm
  have hb := @Nat.lt_log2_self m
  rcases Nat.lt_trichotomy (Nat.log2 m) k with hlt | heq | hgt
  · have hc : (2 : ℕ) ^ (Nat.log2 m + 1) ≤ 2 ^ k :=
      Nat.pow_le_pow_right (by norm_num) (by omega)
    omega
  · exact heq
  · have hc : (2 : ℕ) ^ (k + 1) ≤ 2 ^ (Nat.log2 m) :=
      Nat.pow_le_pow_right (by norm_num) (by omega)
    omega

/-- The fuel-based `nlog2` agrees with `Nat.log2` on positive inputs. -/
theorem nlog2_eq (n : ℕ) (h : 1 ≤ n) : nlog2 n = Nat.log2 n := by
  have hs := log2Aux_spec n n le_rfl h
  exact (log2_unique hs.1 hs.2).symm

/-- `log2` of a number shifted left by `d` bits. -/
theorem log2_mul_pow {n : ℕ} (hn : n ≠ 0) (d : ℕ) :
    Nat.log2 (n * 2 ^ d) = Nat.log2 n + d := by
  apply log2_unique
  · rw [pow_add]
    exact Nat.mul_le_mul_right _ (Nat.log2_self_le hn)
  · have h1 : n * 2 ^ d < 2 ^ (Nat.log2 n + 1) * 2 ^ d :=
      (Nat.mul_lt_mul_right (Nat.two_pow_pos d)).2 (@Nat.lt_log2_self n)
    have h2 : (2 : ℕ) ^ (Nat.log2 n + 1) * 2 ^ d = 2 ^ (Nat.log2 n + d + 1) := by
      rw [← pow_add]
      congr 1
      omega
    omega

/-- `log2` of a power of two. -/
theorem log2_two_pow (d : ℕ) : Nat.log2 (2 ^ d) = d := by
  apply log2_unique le_rfl
  have h2 : (2 : ℕ) ^ (d + 1) = 2 ^ d * 2 := pow_succ 2 d
  have := Nat.two_pow_pos d
  omega

/-- Rounding an integer below `2 ^ 53` (given as the dyadic `n·2^d / 2^d`)
is exact: the mantissa is `n` shifted to 53 bits. -/
theorem roundPos_mul_pow (n d : ℕ) (h0 : 0 < n) (h53 : n < 2 ^ 53) :
    roundPos (n * 2 ^ d) (2 ^ d) =
      (n * 2 ^ (52 - Nat.log2 n), (Nat.log2 n : ℤ)) := by
  have hn : n ≠ 0 := by omega
  have hl52 : Nat.log2 n ≤ 52 := by
    have h1 := (Nat.log2_lt hn).2 h53
    omega
  have hdpos := Nat.two_pow_pos d
  have hane : ¬ (n * 2 ^ d = 0) := by
    have := Nat.mul_pos h0 hdpos
    omega
  have he : ratExp2 (n * 2 ^ d) (2 ^ d) = (Nat.log2 n : ℤ) := by
    unfold ratExp2
    rw [nlog2_eq (n * 2 ^ d) (Nat.mul_pos h0 hdpos),
      nlog2_eq (2 ^ d) hdpos, log2_mul_pow hn d, log2_two_pow]
    have hcast : ((Nat.log2 n + d : ℕ) : ℤ) - (d : ℤ) = (Nat.log2 n : ℤ) := by
      push_cast
      ring
    rw [hcast]
    split
    · rw [Int.toNat_natCast]
      rw [if_pos (Nat.mul_le_mul_right _ (Nat.log2_self_le hn))]
    · rename_i hcond
      exact absurd (Int.natCast_nonneg (Nat.log2 n)) hcond
  unfold roundPos
  rw [if_neg hane, he]
  have hs0 : (0 : ℤ) ≤ 52 - (Nat.log2 n : ℤ) := by omega
  rw [if_pos hs0, if_pos hs0]
  have htn : ((52 : ℤ) - (Nat.log2 n : ℤ)).toNat = 52 - Nat.log2 n := by omega
  rw [htn]
  have hre : n * 2 ^ d * 2 ^ (52 - Nat.log2 n) =
      n * 2 ^ (52 - Nat.log2 n) * 2 ^ d := by
    ring
  rw [hre]
  have hmant : roundMantissa (n * 2 ^ (52 - Nat.log2 n) * 2 ^ d) (2 ^ d) =
      n * 2 ^ (52 - Nat.log2 n) := by
    unfold roundMantissa
    rw [Nat.mul_mod_left, Nat.mul_div_cancel _ hdpos]
    simp [hdpos]
  rw [hmant]

/-- Rounding an integer `n < 2 ^ 53` to binary64 is exact. -/
theorem roundPos_nat (n : ℕ) (h0 : 0 < n) (h53 : n < 2 ^ 53) :
    roundPos n 1 = (n * 2 ^ (52 - Nat.log2 n), (Nat.log2 n : ℤ)) := by
  have := roundPos_mul_pow n 0 h0 h53
  simpa using this

/-- The rounded product of two exactly represented integers whose product
stays below `2 ^ 53` is the exactly represented product. -/
theorem mulRound_exact (p q : ℕ) (hp : 0 < p) (hq : 0 < q)
    (hpq : p * q < 2 ^ 53) :
    mulRound (roundPos p 1) (roundPos q 1) =
      (p * q * 2 ^ (52 - Nat.log2 (p * q)), (Nat.log2 (p * q) : ℤ)) := by
  have hp53 : p < 2 ^ 53 := by
    have h1 : p ≤ p * q := Nat.le_mul_of_pos_right p hq
    omega
  have hq53 : q < 2 ^ 53 := by
    have h1 : q ≤ p * q := Nat.le_mul_of_pos_left q hp
    omega
  have hlp52 : Nat.log2 p ≤ 52 := by
    have h1 := (Nat.log2_lt (by omega)).2 hp53
    omega
  have hlq52 : Nat.log2 q ≤ 52 := by
    have h1 := (Nat.log2_lt (by omega)).2 hq53
    omega
  rw [roundPos_nat p hp hp53, roundPos_nat q hq hq53]
  unfold mulRound
  dsimp only
  by_cases hE : (0 : ℤ) ≤ (Nat.log2 p : ℤ) + (Nat.log2 q : ℤ) - 104
  · have hlp : Nat.log2 p = 52 := by omega
    have hlq : Nat.log2 q = 52 := by omega
    rw [if_pos hE]
    have ht0 : ((Nat.log2 p : ℤ) + (Nat.log2 q : ℤ) - 104).toNat = 0 := by omega
    rw [ht0]
    have harg : p * 2 ^ (52 - Nat.log2 p) * (q * 2 ^ (52 - Nat.log2 q)) * 2 ^ 0 =
        p * q := by
      rw [hlp, hlq]
      norm_num
    rw [harg]
    exact roundPos_nat (p * q) (Nat.mul_pos hp hq) hpq
  · rw [if_neg hE]
    have htn : ((104 : ℤ) - (Nat.log2 p : ℤ) - (Nat.log2 q : ℤ)).toNat =
        104 - Nat.log2 p - Nat.log2 q := by omega
    rw [htn]
    have harg : p * 2 ^ (52 - Nat.log2 p) * (q * 2 ^ (52 - Nat.log2 q)) =
        p * q * 2 ^ (104 - Nat.log2 p - Nat.log2 q) := by
      rw [show (104 : ℕ) - Nat.log2 p - Nat.log2 q =
          (52 - Nat.log2 p) + (52 - Nat.log2 q) from by omega, pow_add]
      ring
    rw [harg]
    exact roundPos_mul_pow (p * q) (104 - Nat.log2 p - Nat.log2 q)
      (Nat.mul_pos hp hq) hpq

/-- Truncating an exactly represented integer returns it. -/
theorem truncF_exact (k l : ℕ) (hl : l ≤ 52) :
    truncF (k * 2 ^ (52 - l), (l : ℤ)) = k := by
  unfold truncF
  dsimp only
  by_cases h : (0 : ℤ) ≤ (l : ℤ) - 52
  · have hl52 : l = 52 := by omega
    subst hl52
    norm_num
  · rw [if_neg h]
    have htn : ((52 : ℤ) - (l : ℤ)).toNat = 52 - l := by omega
    rw [htn]
    exact Nat.mul_div_cancel _ (Nat.two_pow_pos (52 - l))

/-- Multiplying by the zero float gives the zero float. -/
theorem mulRound_zero_right (x : ℕ × ℤ) : mulRound x (0, 0) = (0, 0) := by
  unfold mulRound
  dsimp only
  split <;> simp [roundPos]

/-- When the native width is 1 and `W · Hn` fits in 53 bits, the binary64
height derivation is exact and agrees with the spec's integer floor. -/
theorem derivedHeight_exact (nativeH tw : ℕ) (hw : 0 < tw)
    (hb : tw * nativeH < 2 ^ 53) :
    derivedHeight 1 nativeH tw = (specDerivedHeight 1 nativeH tw : ℤ) := by
  unfold derivedHeight specDerivedHeight
  rcases Nat.eq_zero_or_pos nativeH with h0 | hpos
  · subst h0
    rw [show roundPos 0 1 = (0, 0) from rfl, mulRound_zero_right]
    norm_num [truncF]
  · rw [mulRound_exact tw nativeH hw hpos hb]
    have hne : tw * nativeH ≠ 0 := by
      have := Nat.mul_pos hw hpos
      omega
    have hl : Nat.log2 (tw * nativeH) ≤ 52 := by
      have h1 := (Nat.log2_lt hne).2 hb
      omega
    rw [truncF_exact _ _ hl, Nat.div_one]

set_option maxRecDepth 400000 in
/-- C4 counterexample: for a 3×13 native image and requested width 27 with no
explicit height, the loader resolves height 116 (binary64: `27 * (13/3)`
evaluates to `116.99999999999999`, and `int` truncates), whereas exact
integer truncation `floor(W × Hn / Wn) = floor(27 × 13 / 3)` is 117. -/
theorem c4_counterexample :
    (loadAndProcessImage cexEnv "tall.png" 27 none 128 false).resizeCall =
      some (27, derivedHeight 3 13 27) ∧
    derivedHeight 3 13 27 = 116 ∧
    (specDerivedHeight 3 13 27 : ℤ) = 117 ∧
    derivedHeight 3 13 27 ≠ (specDerivedHeight 3 13 27 : ℤ) := by
  exact ⟨by decide, by decide, by decide, by decide⟩

/-- C4 (amended): when `--height` is omitted the resolved height is the
truncation toward zero of `W × (Hn / Wn)` evaluated in binary64 floating
point (`derivedHeight`), not the exact `floor(W × Hn / Wn)`; the two agree
when the computation is exact — for instance when `Wn = 1` and `W · Hn`
fits in 53 bits — but can differ in general. -/
theorem c4_amended (env : Env) (inputPath : String) (tw : ℕ) (t : ℤ)
    (inv : Bool) (hin : env.inputExists = true) (hdec : env.decodeOk = true)
    (hw : 0 < tw) :
    (loadAndProcessImage env inputPath (tw : ℤ) none t inv).resizeCall =
      some ((tw : ℤ), derivedHeight env.nativeW env.nativeH tw) ∧
    (env.nativeW = 1 → tw * env.nativeH < 2 ^ 53 →
      derivedHeight env.nativeW env.nativeH tw =
        (specDerivedHeight env.nativeW env.nativeH tw : ℤ)) := by
  constructor
  · simp [loadAndProcessImage, hin, hdec]
  · intro h1 hb
    rw [h1]
    exact derivedHeight_exact env.nativeH tw hw hb

set_option maxRecDepth 400000 in
/-- Witness for C4 (amended) on a 1×2 image with width 3: resolved height 6. -/
theorem c4_witness :
    (loadAndProcessImage env1 "sq.png" ((3 : ℕ) : ℤ) none 128 false).resizeCall =
      some (((3 : ℕ) : ℤ), derivedHeight env1.nativeW env1.nativeH 3) ∧
    derivedHeight env1.nativeW env1.nativeH 3 =
      (specDerivedHeight env1.nativeW env1.nativeH 3 : ℤ) :=
  ⟨(c4_amended env1 "sq.png" 3 128 false rfl rfl (by decide)).1,
    (c4_amended env1 "sq.png" 3 128 false rfl rfl (by decide)).2 rfl (by decide)⟩

end PixelExcel
